import Mathlib

/-
Verification of the go-cache timed cache engine (src/timed/cache.go).

Embedding conventions:
- Go time.Time instants are modelled as integers (Time := Int); the Go
  call now.After(u) is the strict comparison u < now; the Go zero value
  time.Time\x7b\x7d is the sentinel zeroTime = 0.
- The Go map map[string]*TimedItem is modelled as an association list with
  at most one binding consulted per key (lookupItem finds the first
  binding, storeItem overwrites it, deleteItem removes it), matching Go
  map semantics on states reachable from the empty cache.
- Entries are held by value: the engine is the exclusive owner of its
  items, per the data-model ownership rule of the design.
- Every mutating method of DefaultTimedCache returns the pair of the Go
  return value and the new receiver state; time.Now() becomes an explicit
  now argument.
-/

namespace GoCache

/-- Instants of Go time.Time, as integers. -/
abbrev Time := Int

/-- The Go zero value time.Time\x7b\x7d, used as the not-found sentinel. -/
def zeroTime : Time := 0

/-- Go t.After(u): strict comparison, true iff t is strictly later than u. -/
def timeAfter (t u : Time) : Bool := decide (u < t)

/-- TimedItem from src/timed/cache.go: a cached value with an expiration time. -/
structure TimedItem (α : Type) where
  expiresAt : Time
  value : α
deriving DecidableEq

/-- NewTimedItem from src/timed/cache.go. -/
def NewTimedItem {α : Type} (value : α) (expiresAt : Time) : TimedItem α :=
  { expiresAt := expiresAt, value := value }

/-- TimedItem.HasExpired from src/timed/cache.go: a nil receiver counts as
expired, otherwise time.Now().After(expiresAt). -/
def TimedItem.HasExpired {α : Type} (now : Time) (i : Option (TimedItem α)) : Bool :=
  match i with
  | none => true
  | some it => timeAfter now it.expiresAt

/-- The error values of src/errors.go and src/timed/errors declarations. -/
inductive CacheError where
  | ErrNilCache
  | ErrNilItem
  | ErrItemNotFound
  | ErrItemHasExpired
  | ErrValueMustBeATimedItem
deriving DecidableEq

/-- A Go interface\x7b\x7d argument as passed to DefaultTimedCache.Set: either
a *TimedItem pointer (possibly nil), or a dynamic value of any other type,
for which the type assertion value.(*TimedItem) fails. -/
inductive GoValue (α : Type) where
  | timedItemPtr : Option (TimedItem α) → GoValue α
  | otherValue : GoValue α
deriving DecidableEq

/-- Lookup in the items map: item, found := d.items[key]. -/
def lookupItem {α : Type} : List (String × TimedItem α) → String → Option (TimedItem α)
  | [], _ => none
  | (k, it) :: rest, key => if k = key then some it else lookupItem rest key

/-- Map assignment d.items[key] = it: overwrite the binding for key, or
append a fresh one. -/
def storeItem {α : Type} : List (String × TimedItem α) → String → TimedItem α → List (String × TimedItem α)
  | [], key, it => [(key, it)]
  | (k, old) :: rest, key, it =>
      if k = key then (key, it) :: rest else (k, old) :: storeItem rest key it

/-- Map removal delete(d.items, key). -/
def deleteItem {α : Type} : List (String × TimedItem α) → String → List (String × TimedItem α)
  | [], _ => []
  | (k, it) :: rest, key =>
      if k = key then deleteItem rest key else (k, it) :: deleteItem rest key

/-- DefaultTimedCache from src/timed/cache.go: the in-memory map of items.
The RWMutex is omitted: all operations here are whole atomic steps. -/
structure DefaultTimedCache (α : Type) where
  items : List (String × TimedItem α)
deriving DecidableEq

/-- NewDefaultTimedCache from src/timed/cache.go: the empty cache. -/
def NewDefaultTimedCache {α : Type} : DefaultTimedCache α := ⟨[]⟩

/-- DefaultTimedCache.Set from src/timed/cache.go: type-assert the value to
*TimedItem, reject a nil item, reject an already expired item, otherwise
store it. Returns the Go error (none on success) and the new state. -/
def DefaultTimedCache.Set {α : Type} (now : Time) (d : DefaultTimedCache α)
    (key : String) (value : GoValue α) : Option CacheError × DefaultTimedCache α :=
  match value with
  | .otherValue => (some .ErrValueMustBeATimedItem, d)
  | .timedItemPtr none => (some .ErrNilItem, d)
  | .timedItemPtr (some it) =>
      if TimedItem.HasExpired now (some it) then (some .ErrItemHasExpired, d)
      else (none, ⟨storeItem d.items key it⟩)

/-- DefaultTimedCache.UpdateValue from src/timed/cache.go: direct map
lookup (no expiration check), then replace only the value field. -/
def DefaultTimedCache.UpdateValue {α : Type} (d : DefaultTimedCache α)
    (key : String) (value : α) : Option CacheError × DefaultTimedCache α :=
  match lookupItem d.items key with
  | none => (some .ErrItemNotFound, d)
  | some it => (none, ⟨storeItem d.items key { it with value := value }⟩)

/-- DefaultTimedCache.UpdateExpiresAt from src/timed/cache.go: direct map
lookup (no expiration check), then replace only the expiration field. -/
def DefaultTimedCache.UpdateExpiresAt {α : Type} (d : DefaultTimedCache α)
    (key : String) (expiresAt : Time) : Option CacheError × DefaultTimedCache α :=
  match lookupItem d.items key with
  | none => (some .ErrItemNotFound, d)
  | some it => (none, ⟨storeItem d.items key { it with expiresAt := expiresAt }⟩)

/-- DefaultTimedCache.Get from src/timed/cache.go: missing key gives
(nil, false); an expired entry is deleted and gives (nil, false); a live
entry gives (value, true). -/
def DefaultTimedCache.Get {α : Type} (now : Time) (d : DefaultTimedCache α)
    (key : String) : (Option α × Bool) × DefaultTimedCache α :=
  match lookupItem d.items key with
  | none => ((none, false), d)
  | some it =>
      if TimedItem.HasExpired now (some it) then ((none, false), ⟨deleteItem d.items key⟩)
      else ((some it.value, true), d)

/-- DefaultTimedCache.Has from src/timed/cache.go: delegates to Get and
keeps only the found flag (and the state Get produced). -/
def DefaultTimedCache.Has {α : Type} (now : Time) (d : DefaultTimedCache α)
    (key : String) : Bool × DefaultTimedCache α :=
  ((DefaultTimedCache.Get now d key).1.2, (DefaultTimedCache.Get now d key).2)

/-- DefaultTimedCache.Delete from src/timed/cache.go. -/
def DefaultTimedCache.Delete {α : Type} (d : DefaultTimedCache α)
    (key : String) : DefaultTimedCache α :=
  ⟨deleteItem d.items key⟩

/-- DefaultTimedCache.GetExpirationTime from src/timed/cache.go: the stored
expiration, or the zero time if the key is absent; a pure read. -/
def DefaultTimedCache.GetExpirationTime {α : Type} (d : DefaultTimedCache α)
    (key : String) : Time × DefaultTimedCache α :=
  match lookupItem d.items key with
  | none => (zeroTime, d)
  | some it => (it.expiresAt, d)

/-- DefaultTimedCache.UpdateExpirationTime from src/timed/cache.go: the
same body as UpdateExpiresAt, embedded separately. -/
def DefaultTimedCache.UpdateExpirationTime {α : Type} (d : DefaultTimedCache α)
    (key : String) (expiresAt : Time) : Option CacheError × DefaultTimedCache α :=
  match lookupItem d.items key with
  | none => (some .ErrItemNotFound, d)
  | some it => (none, ⟨storeItem d.items key { it with expiresAt := expiresAt }⟩)

/-- Storing under a key makes that key look up the stored item. -/
theorem lookupItem_storeItem_self {α : Type} (m : List (String × TimedItem α))
    (key : String) (it : TimedItem α) :
    lookupItem (storeItem m key it) key = some it := by
  induction m with
  | nil => simp [storeItem, lookupItem]
  | cons p rest ih =>
      obtain ⟨k, old⟩ := p
      by_cases h : k = key
      · simp [storeItem, lookupItem, h]
      · simp [storeItem, lookupItem, h, ih]

/-- Storing under a key leaves every other key unchanged. -/
theorem lookupItem_storeItem_ne {α : Type} (m : List (String × TimedItem α))
    (key other : String) (it : TimedItem α) (h : other ≠ key) :
    lookupItem (storeItem m key it) other = lookupItem m other := by
  induction m with
  | nil => simp [storeItem, lookupItem, Ne.symm h]
  | cons p rest ih =>
      obtain ⟨k, old⟩ := p
      by_cases hk : k = key
      · subst hk
        simp [storeItem, lookupItem, Ne.symm h]
      · by_cases ho : k = other
        · subst ho
          simp [storeItem, lookupItem, hk]
        · simp [storeItem, lookupItem, hk, ho, ih]

/-- Deleting a key makes that key absent. -/
theorem lookupItem_deleteItem_self {α : Type} (m : List (String × TimedItem α))
    (key : String) :
    lookupItem (deleteItem m key) key = none := by
  induction m with
  | nil => simp [deleteItem, lookupItem]
  | cons p rest ih =>
      obtain ⟨k, it⟩ := p
      by_cases h : k = key
      · simp [deleteItem, h, ih]
      · simp [deleteItem, lookupItem, h, ih]

/-- Deleting a key leaves every other key unchanged. -/
theorem lookupItem_deleteItem_ne {α : Type} (m : List (String × TimedItem α))
    (key other : String) (h : other ≠ key) :
    lookupItem (deleteItem m key) other = lookupItem m other := by
  induction m with
  | nil => simp [deleteItem]
  | cons p rest ih =>
      obtain ⟨k, it⟩ := p
      by_cases hk : k = key
      · subst hk
        simp [deleteItem, lookupItem, Ne.symm h, ih]
      · simp [deleteItem, lookupItem, hk, ih]

/-- C1: for a key bound in the map, Get returns (value, true) exactly when
now is not strictly after the entry expiration (so an entry observed at
exactly its expiration instant is still live), and Get returns (nil, false)
when the key is missing or when now is strictly after the expiration. -/
theorem get_expiry_boundary {α : Type} (now : Time) (d : DefaultTimedCache α)
    (key : String) :
    (∀ it : TimedItem α, lookupItem d.items key = some it →
      ((DefaultTimedCache.Get now d key).1 = (some it.value, true) ↔ ¬ it.expiresAt < now))
    ∧ (lookupItem d.items key = none →
      (DefaultTimedCache.Get now d key).1 = (none, false))
    ∧ (∀ it : TimedItem α, lookupItem d.items key = some it → it.expiresAt < now →
      (DefaultTimedCache.Get now d key).1 = (none, false)) := by
  refine ⟨?_, ?_, ?_⟩
  · intro it h
    by_cases hc : it.expiresAt < now
    · simp [DefaultTimedCache.Get, h, TimedItem.HasExpired, timeAfter, hc]
    · simp [DefaultTimedCache.Get, h, TimedItem.HasExpired, timeAfter, hc]
  · intro h
    simp [DefaultTimedCache.Get, h]
  · intro it h hc
    simp [DefaultTimedCache.Get, h, TimedItem.HasExpired, timeAfter, hc]

/-- C1 witness: at the exact expiration instant (now = expiresAt = 10) the
entry is still live. -/
theorem get_expiry_boundary_witness :
    (DefaultTimedCache.Get 10 (⟨[("a", ⟨10, 42⟩)]⟩ : DefaultTimedCache Nat) "a").1
      = (some 42, true) :=
  ((get_expiry_boundary 10 (⟨[("a", ⟨10, 42⟩)]⟩ : DefaultTimedCache Nat) "a").1
    ⟨10, 42⟩ (by decide)).mpr (by decide)

/-- C2: Set with an expiration already strictly in the past fails with the
item-expired error, leaves the map unmodified, and a subsequent Get is
exactly the Get on the prior state; in particular from a state where the
key is absent the subsequent Get does not return the value. -/
theorem set_rejects_expired {α : Type} (now t : Time) (d : DefaultTimedCache α)
    (key : String) (v : α) (h : t < now) :
    DefaultTimedCache.Set now d key (GoValue.timedItemPtr (some (NewTimedItem v t)))
      = (some CacheError.ErrItemHasExpired, d)
    ∧ DefaultTimedCache.Get now
        (DefaultTimedCache.Set now d key (GoValue.timedItemPtr (some (NewTimedItem v t)))).2 key
      = DefaultTimedCache.Get now d key
    ∧ (lookupItem d.items key = none →
      (DefaultTimedCache.Get now
        (DefaultTimedCache.Set now d key (GoValue.timedItemPtr (some (NewTimedItem v t)))).2 key).1
        = (none, false)) := by
  have hset : DefaultTimedCache.Set now d key
      (GoValue.timedItemPtr (some (NewTimedItem v t)))
      = (some CacheError.ErrItemHasExpired, d) := by
    simp [DefaultTimedCache.Set, NewTimedItem, TimedItem.HasExpired, timeAfter, h]
  refine ⟨hset, by rw [hset], ?_⟩
  intro habs
  rw [hset]
  simp [DefaultTimedCache.Get, habs]

/-- C2 witness: inserting at time 5 an item that expired at time 3 into the
empty cache fails and the following Get finds nothing. -/
theorem set_rejects_expired_witness :
    DefaultTimedCache.Set 5 (NewDefaultTimedCache (α := Nat)) "a"
      (GoValue.timedItemPtr (some (NewTimedItem 42 3)))
      = (some CacheError.ErrItemHasExpired, NewDefaultTimedCache)
    ∧ (DefaultTimedCache.Get 5
        (DefaultTimedCache.Set 5 (NewDefaultTimedCache (α := Nat)) "a"
          (GoValue.timedItemPtr (some (NewTimedItem 42 3)))).2 "a").1
      = (none, false) := by
  have h := set_rejects_expired 5 3 (NewDefaultTimedCache (α := Nat)) "a" 42 (by decide)
  exact ⟨h.1, h.2.2 (by decide)⟩

/-- C3: Get on a present but expired entry returns (nil, false) and deletes
the key from the map, so GetExpirationTime on the resulting state returns
the zero-time sentinel. -/
theorem get_evicts_expired {α : Type} (now : Time) (d : DefaultTimedCache α)
    (key : String) (it : TimedItem α) (h : lookupItem d.items key = some it)
    (hexp : it.expiresAt < now) :
    DefaultTimedCache.Get now d key = ((none, false), ⟨deleteItem d.items key⟩)
    ∧ lookupItem (DefaultTimedCache.Get now d key).2.items key = none
    ∧ (DefaultTimedCache.GetExpirationTime (DefaultTimedCache.Get now d key).2 key).1
      = zeroTime := by
  have hget : DefaultTimedCache.Get now d key
      = ((none, false), ⟨deleteItem d.items key⟩) := by
    simp [DefaultTimedCache.Get, h, TimedItem.HasExpired, timeAfter, hexp]
  have hlook : lookupItem (DefaultTimedCache.Get now d key).2.items key = none := by
    rw [hget]
    exact lookupItem_deleteItem_self d.items key
  refine ⟨hget, hlook, ?_⟩
  simp [DefaultTimedCache.GetExpirationTime, hlook]

/-- C3 witness: at time 20 the entry that expired at time 10 is evicted by
Get and GetExpirationTime then reports the sentinel. -/
theorem get_evicts_expired_witness :
    DefaultTimedCache.Get 20 (⟨[("a", ⟨10, 42⟩)]⟩ : DefaultTimedCache Nat) "a"
      = ((none, false), ⟨[]⟩)
    ∧ (DefaultTimedCache.GetExpirationTime
        (DefaultTimedCache.Get 20 (⟨[("a", ⟨10, 42⟩)]⟩ : DefaultTimedCache Nat) "a").2 "a").1
      = zeroTime := by
  have h := get_evicts_expired 20 (⟨[("a", ⟨10, 42⟩)]⟩ : DefaultTimedCache Nat) "a"
    ⟨10, 42⟩ (by decide) (by decide)
  exact ⟨by rw [h.1]; decide, h.2.2⟩

/-- C4: UpdateValue on an absent key fails with the not-found error and
does not insert the key; UpdateValue on a present but expired key still
succeeds, because the check is a direct map lookup that ignores expiry. -/
theorem updateValue_notFound_ignores_expiry {α : Type} (now : Time)
    (d : DefaultTimedCache α) (key : String) (v : α) :
    (lookupItem d.items key = none →
      DefaultTimedCache.UpdateValue d key v = (some CacheError.ErrItemNotFound, d)
      ∧ lookupItem (DefaultTimedCache.UpdateValue d key v).2.items key = none)
    ∧ (∀ it : TimedItem α, lookupItem d.items key = some it → it.expiresAt < now →
      (DefaultTimedCache.UpdateValue d key v).1 = none) := by
  constructor
  · intro h
    constructor
    · simp [DefaultTimedCache.UpdateValue, h]
    · simp [DefaultTimedCache.UpdateValue, h]
  · intro it h hexp
    simp [DefaultTimedCache.UpdateValue, h]

/-- C4 witness: updating the absent key of the empty cache fails without
inserting it, and updating a key whose entry expired at 10 succeeds at 20. -/
theorem updateValue_notFound_ignores_expiry_witness :
    DefaultTimedCache.UpdateValue (NewDefaultTimedCache (α := Nat)) "a" 7
      = (some CacheError.ErrItemNotFound, NewDefaultTimedCache)
    ∧ (DefaultTimedCache.UpdateValue (⟨[("b", ⟨10, 42⟩)]⟩ : DefaultTimedCache Nat) "b" 7).1
      = none := by
  have h1 := (updateValue_notFound_ignores_expiry 0 (NewDefaultTimedCache (α := Nat))
    "a" 7).1 (by decide)
  have h2 := (updateValue_notFound_ignores_expiry 20
    (⟨[("b", ⟨10, 42⟩)]⟩ : DefaultTimedCache Nat) "b" 7).2 ⟨10, 42⟩ (by decide) (by decide)
  exact ⟨h1.1, h2⟩

/-- C5: Has returns exactly the found flag of Get together with the state
Get produced, its flag is true exactly when the key holds a live entry, and
on a present but expired entry it evicts the key and returns false. -/
theorem has_delegates_to_get {α : Type} (now : Time) (d : DefaultTimedCache α)
    (key : String) :
    DefaultTimedCache.Has now d key
      = ((DefaultTimedCache.Get now d key).1.2, (DefaultTimedCache.Get now d key).2)
    ∧ ((DefaultTimedCache.Has now d key).1 = true ↔
      ∃ it : TimedItem α, lookupItem d.items key = some it ∧ ¬ it.expiresAt < now)
    ∧ (∀ it : TimedItem α, lookupItem d.items key = some it → it.expiresAt < now →
      DefaultTimedCache.Has now d key = (false, ⟨deleteItem d.items key⟩)) := by
  refine ⟨rfl, ?_, ?_⟩
  · cases hl : lookupItem d.items key with
    | none => simp [DefaultTimedCache.Has, DefaultTimedCache.Get, hl]
    | some it =>
        by_cases hc : it.expiresAt < now
        · simp [DefaultTimedCache.Has, DefaultTimedCache.Get, hl,
            TimedItem.HasExpired, timeAfter, hc]
        · simp [DefaultTimedCache.Has, DefaultTimedCache.Get, hl,
            TimedItem.HasExpired, timeAfter, hc]
          exact Int.not_lt.mp hc
  · intro it h hexp
    simp [DefaultTimedCache.Has, DefaultTimedCache.Get, h,
      TimedItem.HasExpired, timeAfter, hexp]

/-- C5 witness: on an entry expired at 10 observed at 20, Has evicts the
key and returns false; on a live entry it returns true. -/
theorem has_delegates_to_get_witness :
    DefaultTimedCache.Has 20 (⟨[("a", ⟨10, 42⟩)]⟩ : DefaultTimedCache Nat) "a"
      = (false, ⟨[]⟩)
    ∧ (DefaultTimedCache.Has 5 (⟨[("a", ⟨10, 42⟩)]⟩ : DefaultTimedCache Nat) "a").1
      = true := by
  have h1 := (has_delegates_to_get 20 (⟨[("a", ⟨10, 42⟩)]⟩ : DefaultTimedCache Nat) "a").2.2
    ⟨10, 42⟩ (by decide) (by decide)
  have h2 := (has_delegates_to_get 5 (⟨[("a", ⟨10, 42⟩)]⟩ : DefaultTimedCache Nat) "a").2.1.mpr
    ⟨⟨10, 42⟩, by decide, by decide⟩
  exact ⟨by rw [h1]; decide, h2⟩

/-- C6: UpdateExpiresAt on a present key succeeds for any new expiration,
including one already in the past, replacing only the expiration field;
when the new expiration is in the past the next Get returns (nil, false)
and purges the key from the map. -/
theorem updateExpiresAt_allows_past {α : Type} (now t : Time)
    (d : DefaultTimedCache α) (key : String) (it : TimedItem α)
    (h : lookupItem d.items key = some it) :
    DefaultTimedCache.UpdateExpiresAt d key t
      = (none, ⟨storeItem d.items key { it with expiresAt := t }⟩)
    ∧ (t < now →
      (DefaultTimedCache.Get now (DefaultTimedCache.UpdateExpiresAt d key t).2 key).1
        = (none, false)
      ∧ lookupItem
          (DefaultTimedCache.Get now (DefaultTimedCache.UpdateExpiresAt d key t).2 key).2.items
          key = none) := by
  have hupd : DefaultTimedCache.UpdateExpiresAt d key t
      = (none, ⟨storeItem d.items key { it with expiresAt := t }⟩) := by
    simp [DefaultTimedCache.UpdateExpiresAt, h]
  refine ⟨hupd, ?_⟩
  intro hpast
  have hlook : lookupItem (DefaultTimedCache.UpdateExpiresAt d key t).2.items key
      = some { it with expiresAt := t } := by
    rw [hupd]
    exact lookupItem_storeItem_self d.items key _
  have hget : DefaultTimedCache.Get now (DefaultTimedCache.UpdateExpiresAt d key t).2 key
      = ((none, false),
        ⟨deleteItem (DefaultTimedCache.UpdateExpiresAt d key t).2.items key⟩) := by
    simp [DefaultTimedCache.Get, hlook, TimedItem.HasExpired, timeAfter, hpast]
  constructor
  · rw [hget]
  · rw [hget]
    exact lookupItem_deleteItem_self _ key

/-- C6 witness: rewinding the expiration of a live entry to the past makes
the next Get miss and purge the key. -/
theorem updateExpiresAt_allows_past_witness :
    DefaultTimedCache.UpdateExpiresAt (⟨[("a", ⟨30, 42⟩)]⟩ : DefaultTimedCache Nat) "a" 3
      = (none, ⟨[("a", ⟨3, 42⟩)]⟩)
    ∧ (DefaultTimedCache.Get 20
        (DefaultTimedCache.UpdateExpiresAt (⟨[("a", ⟨30, 42⟩)]⟩ : DefaultTimedCache Nat) "a" 3).2
        "a").1 = (none, false) := by
  have h := updateExpiresAt_allows_past 20 3 (⟨[("a", ⟨30, 42⟩)]⟩ : DefaultTimedCache Nat)
    "a" ⟨30, 42⟩ (by decide)
  exact ⟨h.1, (h.2 (by decide)).1⟩

/-- C7: GetExpirationTime is a pure read: it leaves the map unchanged,
returns the stored expiration when the key is present (expired or not),
and returns the zero-time sentinel when the key is absent. -/
theorem getExpirationTime_pure {α : Type} (d : DefaultTimedCache α) (key : String) :
    (DefaultTimedCache.GetExpirationTime d key).2 = d
    ∧ (∀ it : TimedItem α, lookupItem d.items key = some it →
      (DefaultTimedCache.GetExpirationTime d key).1 = it.expiresAt)
    ∧ (lookupItem d.items key = none →
      (DefaultTimedCache.GetExpirationTime d key).1 = zeroTime) := by
  refine ⟨?_, ?_, ?_⟩
  · cases hl : lookupItem d.items key with
    | none => simp [DefaultTimedCache.GetExpirationTime, hl]
    | some it => simp [DefaultTimedCache.GetExpirationTime, hl]
  · intro it h
    simp [DefaultTimedCache.GetExpirationTime, h]
  · intro h
    simp [DefaultTimedCache.GetExpirationTime, h]

/-- C7 witness: reading the expiration of an entry long expired (stored 10,
read conceptually at any later time) keeps the map intact and returns the
stored value; the absent key gives the sentinel. -/
theorem getExpirationTime_pure_witness :
    (DefaultTimedCache.GetExpirationTime (⟨[("a", ⟨10, 42⟩)]⟩ : DefaultTimedCache Nat) "a").2
      = ⟨[("a", ⟨10, 42⟩)]⟩
    ∧ (DefaultTimedCache.GetExpirationTime (⟨[("a", ⟨10, 42⟩)]⟩ : DefaultTimedCache Nat) "a").1
      = 10
    ∧ (DefaultTimedCache.GetExpirationTime (⟨[("a", ⟨10, 42⟩)]⟩ : DefaultTimedCache Nat) "b").1
      = zeroTime := by
  have h := getExpirationTime_pure (⟨[("a", ⟨10, 42⟩)]⟩ : DefaultTimedCache Nat) "a"
  have hb := getExpirationTime_pure (⟨[("a", ⟨10, 42⟩)]⟩ : DefaultTimedCache Nat) "b"
  exact ⟨h.1, h.2.1 ⟨10, 42⟩ (by decide), hb.2.2 (by decide)⟩

/-- C8: a successful UpdateValue replaces only the value field of the
entry at the key (its expiration is kept) and a successful UpdateExpiresAt
replaces only the expiration field (its value is kept); in both cases the
bindings at every other key are untouched. -/
theorem update_frame {α : Type} (d : DefaultTimedCache α) (key : String)
    (v : α) (t : Time) (it : TimedItem α) (h : lookupItem d.items key = some it) :
    (DefaultTimedCache.UpdateValue d key v).1 = none
    ∧ lookupItem (DefaultTimedCache.UpdateValue d key v).2.items key
      = some { expiresAt := it.expiresAt, value := v }
    ∧ (DefaultTimedCache.UpdateExpiresAt d key t).1 = none
    ∧ lookupItem (DefaultTimedCache.UpdateExpiresAt d key t).2.items key
      = some { expiresAt := t, value := it.value }
    ∧ (∀ other : String, other ≠ key →
      lookupItem (DefaultTimedCache.UpdateValue d key v).2.items other
        = lookupItem d.items other
      ∧ lookupItem (DefaultTimedCache.UpdateExpiresAt d key t).2.items other
        = lookupItem d.items other) := by
  refine ⟨?_, ?_, ?_, ?_, ?_⟩
  · simp [DefaultTimedCache.UpdateValue, h]
  · simp [DefaultTimedCache.UpdateValue, h]
    exact lookupItem_storeItem_self d.items key _
  · simp [DefaultTimedCache.UpdateExpiresAt, h]
  · simp [DefaultTimedCache.UpdateExpiresAt, h]
    exact lookupItem_storeItem_self d.items key _
  · intro other hne
    constructor
    · simp [DefaultTimedCache.UpdateValue, h]
      exact lookupItem_storeItem_ne d.items key other _ hne
    · simp [DefaultTimedCache.UpdateExpiresAt, h]
      exact lookupItem_storeItem_ne d.items key other _ hne

/-- C8 witness: on a two-entry cache, updating the value at key a keeps its
expiration 30 and the entry at key b; updating the expiration at key a
keeps its value 42 and the entry at key b. -/
theorem update_frame_witness :
    (DefaultTimedCache.UpdateValue
      (⟨[("a", ⟨30, 42⟩), ("b", ⟨50, 9⟩)]⟩ : DefaultTimedCache Nat) "a" 7).1 = none
    ∧ lookupItem (DefaultTimedCache.UpdateValue
        (⟨[("a", ⟨30, 42⟩), ("b", ⟨50, 9⟩)]⟩ : DefaultTimedCache Nat) "a" 7).2.items "a"
      = some ⟨30, 7⟩
    ∧ lookupItem (DefaultTimedCache.UpdateExpiresAt
        (⟨[("a", ⟨30, 42⟩), ("b", ⟨50, 9⟩)]⟩ : DefaultTimedCache Nat) "a" 99).2.items "a"
      = some ⟨99, 42⟩
    ∧ lookupItem (DefaultTimedCache.UpdateValue
        (⟨[("a", ⟨30, 42⟩), ("b", ⟨50, 9⟩)]⟩ : DefaultTimedCache Nat) "a" 7).2.items "b"
      = lookupItem [("a", (⟨30, 42⟩ : TimedItem Nat)), ("b", ⟨50, 9⟩)] "b" := by
  have h := update_frame (⟨[("a", ⟨30, 42⟩), ("b", ⟨50, 9⟩)]⟩ : DefaultTimedCache Nat)
    "a" 7 99 ⟨30, 42⟩ (by decide)
  exact ⟨h.1, h.2.1, h.2.2.2.1, (h.2.2.2.2 "b" (by decide)).1⟩

/-- C9: Set fails with the nil-item error when the supplied *TimedItem is
nil, and with the type-mismatch error when the supplied dynamic value is
not a *TimedItem; in both failure cases the map is left unmodified. -/
theorem set_rejects_nil_and_mismatch {α : Type} (now : Time)
    (d : DefaultTimedCache α) (key : String) :
    DefaultTimedCache.Set now d key (GoValue.timedItemPtr none)
      = (some CacheError.ErrNilItem, d)
    ∧ DefaultTimedCache.Set now d key GoValue.otherValue
      = (some CacheError.ErrValueMustBeATimedItem, d) :=
  ⟨rfl, rfl⟩

/-- C10: UpdateExpiresAt and UpdateExpirationTime are extensionally equal:
on every state, key and timestamp they return the same error (not-found on
an absent key, success otherwise) and the same resulting map, with the
expiration of the entry at the key set to the timestamp. -/
theorem updateExpiresAt_eq_updateExpirationTime {α : Type}
    (d : DefaultTimedCache α) (key : String) (t : Time) :
    DefaultTimedCache.UpdateExpiresAt d key t
      = DefaultTimedCache.UpdateExpirationTime d key t
    ∧ (lookupItem d.items key = none →
      DefaultTimedCache.UpdateExpirationTime d key t
        = (some CacheError.ErrItemNotFound, d))
    ∧ (∀ it : TimedItem α, lookupItem d.items key = some it →
      DefaultTimedCache.UpdateExpirationTime d key t
        = (none, ⟨storeItem d.items key { it with expiresAt := t }⟩)) := by
  refine ⟨rfl, ?_, ?_⟩
  · intro h
    simp [DefaultTimedCache.UpdateExpirationTime, h]
  · intro it h
    simp [DefaultTimedCache.UpdateExpirationTime, h]

/-- C10 witness: the two update methods agree on a concrete cache, both on
the bound key and on an absent key. -/
theorem updateExpiresAt_eq_updateExpirationTime_witness :
    DefaultTimedCache.UpdateExpirationTime
      (⟨[("a", ⟨30, 42⟩)]⟩ : DefaultTimedCache Nat) "a" 99
      = (none, ⟨[("a", ⟨99, 42⟩)]⟩)
    ∧ DefaultTimedCache.UpdateExpirationTime
        (⟨[("a", ⟨30, 42⟩)]⟩ : DefaultTimedCache Nat) "b" 99
      = (some CacheError.ErrItemNotFound, ⟨[("a", ⟨30, 42⟩)]⟩) := by
  have h1 := (updateExpiresAt_eq_updateExpirationTime
    (⟨[("a", ⟨30, 42⟩)]⟩ : DefaultTimedCache Nat) "a" 99).2.2 ⟨30, 42⟩ (by decide)
  have h2 := (updateExpiresAt_eq_updateExpirationTime
    (⟨[("a", ⟨30, 42⟩)]⟩ : DefaultTimedCache Nat) "b" 99).2.1 (by decide)
  exact ⟨by rw [h1]; decide, h2⟩

end GoCache
